import Mathlib

/-!
The biquad filter externals `bandPass~` and `lowPass~`.

A shallow embedding of `bandPass~.c` and `lowPass~.c`.

Conventions of the embedding.

* C `float` values are idealised as elements of a linearly ordered field `α`
  (exact arithmetic, no rounding, no NaN or infinities).  The definitions are
  polymorphic in `α`, hence executable at `α = ℚ`; the theorems that need
  facts about the trigonometric functions are stated at `α = ℝ`.
* `/` is the division of the field, which is total (`x / 0 = 0`); the
  infinities and NaN that IEEE arithmetic produces when a denominator is zero
  are not represented.  Where this matters the perform routines are repeated
  with every division checked (`bandPass_perform_checked`,
  `lowPass_perform_checked`): they give `none` as soon as a divisor is zero.
* `bandPass_new` and `lowPass_new` keep `8 * atan 1` exact; the binary32
  number that the running code stores in `x_twopi` is `twopi_binary32`.
* The literal `0.01` is the exact rational `1/100`.
* The libm functions `sin`, `cos` and `atan` are parameters of the
  definitions that call them.
* A signal vector (`t_float *`) is a function `Nat → α`: the sample stored at
  each offset from the pointer.  `*p++` reads the sample at the current
  offset and advances it.  The samples stored through `*output++` are
  collected, in order, in a list.
* The vector size `n` (`sp[0]->s_n`, never negative) is a natural number.
* The Pd object header `obj`, the float inlet `x_f`, and the calls into the
  Pd runtime (`pd_new`, `inlet_new`, `outlet_new`, `dsp_add`) are not
  modelled; `sys_getsr()` and `sp[0]->s_sr` are passed as arguments.
-/

namespace Filters

/-! ## Data model -/

/-- The object structure `t_bandPass` (numeric fields). -/
structure t_bandPass (α : Type) where
  x_coeff_a0 : α
  x_coeff_a1 : α
  x_coeff_a2 : α
  x_coeff_b0 : α
  x_coeff_b1 : α
  x_coeff_b2 : α
  x_last_in : α
  x_prev_in : α
  x_last_out : α
  x_prev_out : α
  x_twopi : α
  x_sr : α

/-- The object structure `t_lowPass` (numeric fields). -/
structure t_lowPass (α : Type) where
  x_coeff_a0 : α
  x_coeff_a1 : α
  x_coeff_a2 : α
  x_coeff_b0 : α
  x_coeff_b1 : α
  x_coeff_b2 : α
  x_last_in : α
  x_prev_in : α
  x_last_out : α
  x_prev_out : α
  x_twopi : α
  x_sr : α

/-- The six coefficient locals of a perform routine (`coeff_a0` … `coeff_b2`). -/
structure Coeffs (α : Type) where
  coeff_a0 : α
  coeff_a1 : α
  coeff_a2 : α
  coeff_b0 : α
  coeff_b1 : α
  coeff_b2 : α

/-- The mutable locals of a perform routine that are carried from one loop
iteration to the next: the coefficients and the four previous samples. -/
structure Locals (α : Type) where
  coeff : Coeffs α
  last_in : α
  prev_in : α
  last_out : α
  prev_out : α

/-! ## bandPass~ -/

section defs

variable {α : Type} [LinearOrderedField α]

/-- The new instance routine `bandPass_new`; `sys_getsr` is the value returned
by the Pd call of that name. -/
def bandPass_new (atan : α → α) (sys_getsr : α) : t_bandPass α :=
  { x_coeff_a0 := 0
    x_coeff_a1 := 0
    x_coeff_a2 := 0
    x_coeff_b0 := 0
    x_coeff_b1 := 0
    x_coeff_b2 := 0
    x_last_in := 0
    x_prev_in := 0
    x_last_out := 0
    x_prev_out := 0
    x_twopi := 8 * atan 1
    x_sr := sys_getsr }

/-- Lines 125–142 of `bandPass_perform`: the coefficients computed in one
loop iteration from the frequency sample `f` and the bandwidth sample `b`. -/
def bandPass_coeffs (sin cos : α → α) (twopi sr f b : α) : Coeffs α :=
  let freq_local := f * twopi / sr
  let bandwidth_local := b
  let bandwidth_local := if bandwidth_local > 0.01 then bandwidth_local else 0.01
  let alpha := sin freq_local / (2 * bandwidth_local)
  let coeff_a0 := alpha + 1
  let coeff_a1 := (-2) * cos freq_local
  let coeff_a2 := 1 - alpha
  let coeff_b0 := alpha
  let coeff_b1 := 0
  let coeff_b2 := alpha * (-1)
  let coeff_a1 := (coeff_a1 * (-1)) / coeff_a0
  let coeff_a2 := (coeff_a2 * (-1)) / coeff_a0
  let coeff_b0 := coeff_b0 / coeff_a0
  let coeff_b1 := coeff_b1 / coeff_a0
  let coeff_b2 := coeff_b2 / coeff_a0
  { coeff_a0 := coeff_a0
    coeff_a1 := coeff_a1
    coeff_a2 := coeff_a2
    coeff_b0 := coeff_b0
    coeff_b1 := coeff_b1
    coeff_b2 := coeff_b2 }

/-- One iteration of the loop of `bandPass_perform` (lines 125–151): the new
locals and the sample stored through `*output++`. -/
def bandPass_sample (sin cos : α → α) (twopi sr : α) (l : Locals α)
    (in_sample f b : α) : Locals α × α :=
  let c := bandPass_coeffs sin cos twopi sr f b
  let out_sample := (c.coeff_b0 * in_sample) + (c.coeff_b1 * l.last_in)
    + (c.coeff_b2 * l.prev_in) + (c.coeff_a1 * l.last_out) + (c.coeff_a2 * l.prev_out)
  ({ coeff := c
     prev_in := l.last_in
     last_in := in_sample
     prev_out := l.last_out
     last_out := out_sample }, out_sample)

/-- The loop `while(n--)` of `bandPass_perform`: `n` iterations remain, the
three input pointers have been advanced `i` times. -/
def bandPass_loop (sin cos : α → α) (twopi sr : α) (input frequency bandwidth : Nat → α) :
    Nat → Nat → Locals α → Locals α × List α
  | 0, _, l => (l, [])
  | n + 1, i, l =>
    let r := bandPass_sample sin cos twopi sr l (input i) (frequency i) (bandwidth i)
    let rest := bandPass_loop sin cos twopi sr input frequency bandwidth n (i + 1) r.1
    (rest.1, r.2 :: rest.2)

/-- The perform routine `bandPass_perform`: the object after the call and the
samples written to the output vector. -/
def bandPass_perform (sin cos : α → α) (x : t_bandPass α)
    (input frequency bandwidth : Nat → α) (n : Nat) : t_bandPass α × List α :=
  let l : Locals α :=
    { coeff :=
        { coeff_a0 := x.x_coeff_a0
          coeff_a1 := x.x_coeff_a1
          coeff_a2 := x.x_coeff_a2
          coeff_b0 := x.x_coeff_b0
          coeff_b1 := x.x_coeff_b1
          coeff_b2 := x.x_coeff_b2 }
      last_in := x.x_last_in
      prev_in := x.x_prev_in
      last_out := x.x_last_out
      prev_out := x.x_prev_out }
  let r := bandPass_loop sin cos x.x_twopi x.x_sr input frequency bandwidth n 0 l
  ({ x_coeff_a0 := r.1.coeff.coeff_a0
     x_coeff_a1 := r.1.coeff.coeff_a1
     x_coeff_a2 := r.1.coeff.coeff_a2
     x_coeff_b0 := r.1.coeff.coeff_b0
     x_coeff_b1 := r.1.coeff.coeff_b1
     x_coeff_b2 := r.1.coeff.coeff_b2
     x_last_in := r.1.last_in
     x_prev_in := r.1.prev_in
     x_last_out := r.1.last_out
     x_prev_out := r.1.prev_out
     x_twopi := x.x_twopi
     x_sr := x.x_sr }, r.2)

/-- The sample-rate check of the DSP method `bandPass_dsp`; `s_sr` is
`sp[0]->s_sr`. -/
def bandPass_dsp (x : t_bandPass α) (s_sr : α) : t_bandPass α :=
  if x.x_sr ≠ s_sr then { x with x_sr := s_sr } else x

/-! ## lowPass~ -/

/-- The new instance routine `lowPass_new`; `sys_getsr` is the value returned
by the Pd call of that name. -/
def lowPass_new (atan : α → α) (sys_getsr : α) : t_lowPass α :=
  { x_coeff_a0 := 0
    x_coeff_a1 := 0
    x_coeff_a2 := 0
    x_coeff_b0 := 0
    x_coeff_b1 := 0
    x_coeff_b2 := 0
    x_last_in := 0
    x_prev_in := 0
    x_last_out := 0
    x_prev_out := 0
    x_twopi := 8 * atan 1
    x_sr := sys_getsr }

/-- Lines 125–143 of `lowPass_perform`: the coefficients computed in one loop
iteration from the frequency sample `f` and the resonance sample `q`. -/
def lowPass_coeffs (sin cos : α → α) (twopi sr f q : α) : Coeffs α :=
  let freq_local := f * twopi / sr
  let reson_local := q
  let reson_local := if reson_local > 0.01 then reson_local else 0.01
  let freq_cos := cos freq_local
  let alpha := sin freq_local / (2 * reson_local)
  let coeff_a0 := alpha + 1
  let coeff_a1 := freq_cos * (-2)
  let coeff_a2 := 1 - alpha
  let coeff_b0 := (1 - freq_cos) / 2
  let coeff_b1 := 1 - freq_cos
  let coeff_b2 := (1 - freq_cos) / 2
  let coeff_a1 := (coeff_a1 * (-1)) / coeff_a0
  let coeff_a2 := (coeff_a2 * (-1)) / coeff_a0
  let coeff_b0 := coeff_b0 / coeff_a0
  let coeff_b1 := coeff_b1 / coeff_a0
  let coeff_b2 := coeff_b2 / coeff_a0
  { coeff_a0 := coeff_a0
    coeff_a1 := coeff_a1
    coeff_a2 := coeff_a2
    coeff_b0 := coeff_b0
    coeff_b1 := coeff_b1
    coeff_b2 := coeff_b2 }

/-- One iteration of the loop of `lowPass_perform` (lines 125–152): the new
locals and the sample stored through `*output++`. -/
def lowPass_sample (sin cos : α → α) (twopi sr : α) (l : Locals α)
    (in_sample f q : α) : Locals α × α :=
  let c := lowPass_coeffs sin cos twopi sr f q
  let out_sample := (c.coeff_b0 * in_sample) + (c.coeff_b1 * l.last_in)
    + (c.coeff_b2 * l.prev_in) + (c.coeff_a1 * l.last_out) + (c.coeff_a2 * l.prev_out)
  ({ coeff := c
     prev_in := l.last_in
     last_in := in_sample
     prev_out := l.last_out
     last_out := out_sample }, out_sample)

/-- The loop `while(n--)` of `lowPass_perform`: `n` iterations remain, the
three input pointers have been advanced `i` times. -/
def lowPass_loop (sin cos : α → α) (twopi sr : α) (input frequency resonance : Nat → α) :
    Nat → Nat → Locals α → Locals α × List α
  | 0, _, l => (l, [])
  | n + 1, i, l =>
    let r := lowPass_sample sin cos twopi sr l (input i) (frequency i) (resonance i)
    let rest := lowPass_loop sin cos twopi sr input frequency resonance n (i + 1) r.1
    (rest.1, r.2 :: rest.2)

/-- The perform routine `lowPass_perform`: the object after the call and the
samples written to the output vector. -/
def lowPass_perform (sin cos : α → α) (x : t_lowPass α)
    (input frequency resonance : Nat → α) (n : Nat) : t_lowPass α × List α :=
  let l : Locals α :=
    { coeff :=
        { coeff_a0 := x.x_coeff_a0
          coeff_a1 := x.x_coeff_a1
          coeff_a2 := x.x_coeff_a2
          coeff_b0 := x.x_coeff_b0
          coeff_b1 := x.x_coeff_b1
          coeff_b2 := x.x_coeff_b2 }
      last_in := x.x_last_in
      prev_in := x.x_prev_in
      last_out := x.x_last_out
      prev_out := x.x_prev_out }
  let r := lowPass_loop sin cos x.x_twopi x.x_sr input frequency resonance n 0 l
  ({ x_coeff_a0 := r.1.coeff.coeff_a0
     x_coeff_a1 := r.1.coeff.coeff_a1
     x_coeff_a2 := r.1.coeff.coeff_a2
     x_coeff_b0 := r.1.coeff.coeff_b0
     x_coeff_b1 := r.1.coeff.coeff_b1
     x_coeff_b2 := r.1.coeff.coeff_b2
     x_last_in := r.1.last_in
     x_prev_in := r.1.prev_in
     x_last_out := r.1.last_out
     x_prev_out := r.1.prev_out
     x_twopi := x.x_twopi
     x_sr := x.x_sr }, r.2)

/-- The sample-rate check of the DSP method `lowPass_dsp`; `s_sr` is
`sp[0]->s_sr`. -/
def lowPass_dsp (x : t_lowPass α) (s_sr : α) : t_lowPass α :=
  if x.x_sr ≠ s_sr then { x with x_sr := s_sr } else x

end defs

/-! ## The skeleton shared by the two loops

The two perform routines differ only in the coefficient formulas.  The
definitions below abstract the coefficient computation as `cf`; the loops
above are shown equal to instances of them, and the properties of the
recursion are proved once. -/

section skeleton

variable {α : Type} [LinearOrderedField α]

/-- One loop iteration with the coefficient computation `cf` applied to the
frequency sample `f` and the shape sample `s`. -/
def biquad_sample (cf : α → α → Coeffs α) (l : Locals α) (in_sample f s : α) : Locals α × α :=
  let c := cf f s
  let out_sample := (c.coeff_b0 * in_sample) + (c.coeff_b1 * l.last_in)
    + (c.coeff_b2 * l.prev_in) + (c.coeff_a1 * l.last_out) + (c.coeff_a2 * l.prev_out)
  ({ coeff := c
     prev_in := l.last_in
     last_in := in_sample
     prev_out := l.last_out
     last_out := out_sample }, out_sample)

/-- The loop with the coefficient computation `cf`. -/
def biquad_loop (cf : α → α → Coeffs α) (input frequency shape : Nat → α) :
    Nat → Nat → Locals α → Locals α × List α
  | 0, _, l => (l, [])
  | n + 1, i, l =>
    let r := biquad_sample cf l (input i) (frequency i) (shape i)
    let rest := biquad_loop cf input frequency shape n (i + 1) r.1
    (rest.1, r.2 :: rest.2)

/-- The locals on entry to a perform routine: the copies of the object's fields. -/
def bandPass_locals (x : t_bandPass α) : Locals α :=
  { coeff :=
      { coeff_a0 := x.x_coeff_a0
        coeff_a1 := x.x_coeff_a1
        coeff_a2 := x.x_coeff_a2
        coeff_b0 := x.x_coeff_b0
        coeff_b1 := x.x_coeff_b1
        coeff_b2 := x.x_coeff_b2 }
    last_in := x.x_last_in
    prev_in := x.x_prev_in
    last_out := x.x_last_out
    prev_out := x.x_prev_out }

/-- The object after the locals `l` have been stored back into `x`. -/
def bandPass_store (x : t_bandPass α) (l : Locals α) : t_bandPass α :=
  { x_coeff_a0 := l.coeff.coeff_a0
    x_coeff_a1 := l.coeff.coeff_a1
    x_coeff_a2 := l.coeff.coeff_a2
    x_coeff_b0 := l.coeff.coeff_b0
    x_coeff_b1 := l.coeff.coeff_b1
    x_coeff_b2 := l.coeff.coeff_b2
    x_last_in := l.last_in
    x_prev_in := l.prev_in
    x_last_out := l.last_out
    x_prev_out := l.prev_out
    x_twopi := x.x_twopi
    x_sr := x.x_sr }

/-- The locals on entry to `lowPass_perform`. -/
def lowPass_locals (x : t_lowPass α) : Locals α :=
  { coeff :=
      { coeff_a0 := x.x_coeff_a0
        coeff_a1 := x.x_coeff_a1
        coeff_a2 := x.x_coeff_a2
        coeff_b0 := x.x_coeff_b0
        coeff_b1 := x.x_coeff_b1
        coeff_b2 := x.x_coeff_b2 }
    last_in := x.x_last_in
    prev_in := x.x_prev_in
    last_out := x.x_last_out
    prev_out := x.x_prev_out }

/-- The object after the locals `l` have been stored back into `x`. -/
def lowPass_store (x : t_lowPass α) (l : Locals α) : t_lowPass α :=
  { x_coeff_a0 := l.coeff.coeff_a0
    x_coeff_a1 := l.coeff.coeff_a1
    x_coeff_a2 := l.coeff.coeff_a2
    x_coeff_b0 := l.coeff.coeff_b0
    x_coeff_b1 := l.coeff.coeff_b1
    x_coeff_b2 := l.coeff.coeff_b2
    x_last_in := l.last_in
    x_prev_in := l.prev_in
    x_last_out := l.last_out
    x_prev_out := l.prev_out
    x_twopi := x.x_twopi
    x_sr := x.x_sr }

/-- The locals after `j` iterations of the loop started at offset 0. -/
def biquad_locals (cf : α → α → Coeffs α) (input frequency shape : Nat → α)
    (l : Locals α) (j : Nat) : Locals α :=
  (biquad_loop cf input frequency shape j 0 l).1

/-- The sample written by iteration `j` of the loop started at offset 0. -/
def biquad_out (cf : α → α → Coeffs α) (input frequency shape : Nat → α)
    (l : Locals α) (j : Nat) : α :=
  (biquad_sample cf (biquad_locals cf input frequency shape l j)
    (input j) (frequency j) (shape j)).2

/-- The vector `v` seen from a pointer advanced `n` times. -/
def advance (v : Nat → α) (n : Nat) : Nat → α := fun k => v (n + k)

/-- The sample one position before position `i` of the block `v`; for `i = 0`
it is the stored value `last`. -/
def sample_before (last : α) (v : Nat → α) (i : Nat) : α :=
  if i = 0 then last else v (i - 1)

/-- The sample two positions before position `i` of the block `v`; for
`i < 2` it comes from the stored values `last` and `prev`. -/
def sample_two_before (last prev : α) (v : Nat → α) (i : Nat) : α :=
  if i = 0 then prev else if i = 1 then last else v (i - 2)

/-- The difference equation of both filters with the coefficients `c`. -/
def difference_equation (c : Coeffs α) (x lastIn prevIn lastOut prevOut : α) : α :=
  c.coeff_b0 * x + c.coeff_b1 * lastIn + c.coeff_b2 * prevIn
    + c.coeff_a1 * lastOut + c.coeff_a2 * prevOut

/-- Lines 126–127 of `bandPass_perform`: the bandwidth sample `b` after the
floor, the value `bandwidth_local` that divides in `alpha`. -/
def bandPass_bandwidth_local (b : α) : α :=
  let bandwidth_local := b
  if bandwidth_local > 0.01 then bandwidth_local else 0.01

/-- Lines 126–127 of `lowPass_perform`: the resonance sample `q` after the
floor, the value `reson_local` that divides in `alpha`. -/
def lowPass_reson_local (q : α) : α :=
  let reson_local := q
  if reson_local > 0.01 then reson_local else 0.01

end skeleton

/-! ## The coefficient lines with checked division

The C divisions never fail: where a divisor is zero they yield an infinity or
a NaN, values that the field `α` does not have.  The definitions below repeat
the perform routines with every division checked, and give `none` as soon as
a divisor is zero, that is, as soon as the running code stops producing
numbers. -/

section checked

variable {α : Type} [LinearOrderedField α]

end checked

/-! ## The loops as instances of the skeleton -/

section basic

variable {α : Type} [LinearOrderedField α]

theorem bandPass_sample_eq (sin cos : α → α) (twopi sr : α) :
    bandPass_sample sin cos twopi sr = biquad_sample (bandPass_coeffs sin cos twopi sr) := rfl

theorem lowPass_sample_eq (sin cos : α → α) (twopi sr : α) :
    lowPass_sample sin cos twopi sr = biquad_sample (lowPass_coeffs sin cos twopi sr) := rfl

theorem bandPass_loop_eq (sin cos : α → α) (twopi sr : α) (input frequency shape : Nat → α)
    (n i : Nat) (l : Locals α) :
    bandPass_loop sin cos twopi sr input frequency shape n i l
      = biquad_loop (bandPass_coeffs sin cos twopi sr) input frequency shape n i l := by
  induction n generalizing i l with
  | zero => rfl
  | succ n ih => simp only [bandPass_loop, biquad_loop, ih, bandPass_sample_eq]

theorem lowPass_loop_eq (sin cos : α → α) (twopi sr : α) (input frequency shape : Nat → α)
    (n i : Nat) (l : Locals α) :
    lowPass_loop sin cos twopi sr input frequency shape n i l
      = biquad_loop (lowPass_coeffs sin cos twopi sr) input frequency shape n i l := by
  induction n generalizing i l with
  | zero => rfl
  | succ n ih => simp only [lowPass_loop, biquad_loop, ih, lowPass_sample_eq]

theorem bandPass_perform_eq (sin cos : α → α) (x : t_bandPass α)
    (input frequency shape : Nat → α) (n : Nat) :
    bandPass_perform sin cos x input frequency shape n
      = (bandPass_store x (biquad_loop (bandPass_coeffs sin cos x.x_twopi x.x_sr)
            input frequency shape n 0 (bandPass_locals x)).1,
          (biquad_loop (bandPass_coeffs sin cos x.x_twopi x.x_sr)
            input frequency shape n 0 (bandPass_locals x)).2) := by
  simp only [bandPass_perform, bandPass_loop_eq, bandPass_store, bandPass_locals]

theorem lowPass_perform_eq (sin cos : α → α) (x : t_lowPass α)
    (input frequency shape : Nat → α) (n : Nat) :
    lowPass_perform sin cos x input frequency shape n
      = (lowPass_store x (biquad_loop (lowPass_coeffs sin cos x.x_twopi x.x_sr)
            input frequency shape n 0 (lowPass_locals x)).1,
          (biquad_loop (lowPass_coeffs sin cos x.x_twopi x.x_sr)
            input frequency shape n 0 (lowPass_locals x)).2) := by
  simp only [lowPass_perform, lowPass_loop_eq, lowPass_store, lowPass_locals]

/-! ## Properties of the recursion -/

variable (cf : α → α → Coeffs α) (input frequency shape : Nat → α)

theorem biquad_loop_length (n i : Nat) (l : Locals α) :
    (biquad_loop cf input frequency shape n i l).2.length = n := by
  induction n generalizing i l with
  | zero => rfl
  | succ n ih => simp [biquad_loop, ih]

theorem biquad_loop_add (n m i : Nat) (l : Locals α) :
    biquad_loop cf input frequency shape (n + m) i l
      = ((biquad_loop cf input frequency shape m (i + n)
            (biquad_loop cf input frequency shape n i l).1).1,
         (biquad_loop cf input frequency shape n i l).2
           ++ (biquad_loop cf input frequency shape m (i + n)
            (biquad_loop cf input frequency shape n i l).1).2) := by
  induction n generalizing i l with
  | zero => simp [biquad_loop]
  | succ n ih =>
    have e : n + 1 + m = (n + m) + 1 := by omega
    have e2 : i + (n + 1) = i + 1 + n := by omega
    rw [e]
    simp only [biquad_loop, ih, e2, List.cons_append]

theorem biquad_loop_advance (n i k : Nat) (l : Locals α) :
    biquad_loop cf input frequency shape n (k + i) l
      = biquad_loop cf (advance input k) (advance frequency k) (advance shape k) n i l := by
  induction n generalizing i l with
  | zero => rfl
  | succ n ih =>
    simp only [biquad_loop, advance]
    rw [← ih (i + 1)]
    rfl

theorem biquad_locals_succ (l : Locals α) (j : Nat) :
    biquad_locals cf input frequency shape l (j + 1)
      = (biquad_sample cf (biquad_locals cf input frequency shape l j)
          (input j) (frequency j) (shape j)).1 := by
  unfold biquad_locals
  rw [biquad_loop_add]
  simp only [biquad_loop, Nat.zero_add]

theorem biquad_loop_out (l : Locals α) (n : Nat) :
    (biquad_loop cf input frequency shape n 0 l).2
      = (List.range n).map (biquad_out cf input frequency shape l) := by
  induction n with
  | zero => rfl
  | succ n ih =>
    rw [biquad_loop_add, List.range_succ, List.map_append, ih]
    simp [biquad_loop, biquad_out, biquad_locals]

theorem biquad_locals_zero (l : Locals α) :
    biquad_locals cf input frequency shape l 0 = l := rfl

theorem biquad_locals_last_in (l : Locals α) (j : Nat) :
    (biquad_locals cf input frequency shape l j).last_in = sample_before l.last_in input j := by
  cases j with
  | zero => rfl
  | succ j => simp [biquad_locals_succ, biquad_sample, sample_before]

theorem biquad_locals_prev_in (l : Locals α) (j : Nat) :
    (biquad_locals cf input frequency shape l j).prev_in
      = sample_two_before l.last_in l.prev_in input j := by
  cases j with
  | zero => rfl
  | succ j =>
    rw [biquad_locals_succ]
    simp only [biquad_sample, biquad_locals_last_in]
    cases j with
    | zero => rfl
    | succ j => simp [sample_before, sample_two_before]

theorem biquad_locals_last_out (l : Locals α) (j : Nat) :
    (biquad_locals cf input frequency shape l j).last_out
      = sample_before l.last_out (biquad_out cf input frequency shape l) j := by
  cases j with
  | zero => rfl
  | succ j => simp [biquad_locals_succ, biquad_sample, sample_before, biquad_out]

theorem biquad_locals_prev_out (l : Locals α) (j : Nat) :
    (biquad_locals cf input frequency shape l j).prev_out
      = sample_two_before l.last_out l.prev_out (biquad_out cf input frequency shape l) j := by
  cases j with
  | zero => rfl
  | succ j =>
    rw [biquad_locals_succ]
    simp only [biquad_sample, biquad_locals_last_out]
    cases j with
    | zero => rfl
    | succ j => simp [sample_before, sample_two_before]

theorem biquad_out_eq (l : Locals α) (j : Nat) :
    biquad_out cf input frequency shape l j
      = difference_equation (cf (frequency j) (shape j)) (input j)
          (sample_before l.last_in input j)
          (sample_two_before l.last_in l.prev_in input j)
          (sample_before l.last_out (biquad_out cf input frequency shape l) j)
          (sample_two_before l.last_out l.prev_out (biquad_out cf input frequency shape l) j) := by
  rw [← biquad_locals_last_in cf input frequency shape, ← biquad_locals_prev_in cf input frequency shape,
    ← biquad_locals_last_out, ← biquad_locals_prev_out]
  rfl

theorem biquad_loop_getD (l : Locals α) (n j : Nat) (h : j < n) :
    (biquad_loop cf input frequency shape n 0 l).2.getD j 0
      = biquad_out cf input frequency shape l j := by
  rw [biquad_loop_out, List.getD_eq_getElem?_getD, List.getElem?_map,
    List.getElem?_range h]
  rfl

theorem biquad_loop_getElem? (l : Locals α) (n j : Nat) (h : j < n) :
    (biquad_loop cf input frequency shape n 0 l).2[j]?
      = some (biquad_out cf input frequency shape l j) := by
  rw [biquad_loop_out, List.getElem?_map, List.getElem?_range h]
  rfl

omit [LinearOrderedField α] in
theorem sample_before_congr (a : α) (u v : Nat → α) (i : Nat)
    (h : ∀ k, k < i → u k = v k) : sample_before a u i = sample_before a v i := by
  unfold sample_before
  split
  · rfl
  · exact h _ (by omega)

omit [LinearOrderedField α] in
theorem sample_two_before_congr (a b : α) (u v : Nat → α) (i : Nat)
    (h : ∀ k, k < i → u k = v k) : sample_two_before a b u i = sample_two_before a b v i := by
  unfold sample_two_before
  split
  · rfl
  · split
    · rfl
    · exact h _ (by omega)

/-- The output sample at position `i < n` of a block of length `n` produced by
the loop, in terms of the block itself and the locals on entry. -/
theorem biquad_loop_sample (l : Locals α) (n i : Nat) (h : i < n) :
    (biquad_loop cf input frequency shape n 0 l).2[i]?
      = some (difference_equation (cf (frequency i) (shape i)) (input i)
          (sample_before l.last_in input i)
          (sample_two_before l.last_in l.prev_in input i)
          (sample_before l.last_out
            (fun k => (biquad_loop cf input frequency shape n 0 l).2.getD k 0) i)
          (sample_two_before l.last_out l.prev_out
            (fun k => (biquad_loop cf input frequency shape n 0 l).2.getD k 0) i)) := by
  rw [biquad_loop_getElem? cf input frequency shape l n i h, biquad_out_eq]
  have hk : ∀ k, k < i → (fun k => (biquad_loop cf input frequency shape n 0 l).2.getD k 0) k
      = biquad_out cf input frequency shape l k := fun k hk =>
    biquad_loop_getD cf input frequency shape l n k (by omega)
  rw [sample_before_congr _ _ _ i hk, sample_two_before_congr _ _ _ _ i hk]

end basic

/-! ## C1 -/

section claims

variable {α : Type} [LinearOrderedField α]

/-- C1: for both `bandPass_perform` and `lowPass_perform`, a block of length
`n` produces exactly `n` output samples, and the sample written at position
`i < n` is `b0*x[i] + b1*lastIn + b2*prevIn + a1*lastOut + a2*prevOut` with the
coefficients derived from `frequency[i]`, `shape[i]` and the sample rate, and
the two previous inputs and outputs taken from the block, or from the stored
history when `i < 2`. -/
theorem perform_output_sample (sin cos : α → α) (xb : t_bandPass α) (xl : t_lowPass α)
    (input frequency shape : Nat → α) (n i : Nat) (hi : i < n) :
    ((bandPass_perform sin cos xb input frequency shape n).2.length = n ∧
      (bandPass_perform sin cos xb input frequency shape n).2[i]?
        = some (difference_equation
            (bandPass_coeffs sin cos xb.x_twopi xb.x_sr (frequency i) (shape i)) (input i)
            (sample_before xb.x_last_in input i)
            (sample_two_before xb.x_last_in xb.x_prev_in input i)
            (sample_before xb.x_last_out
              (fun k => (bandPass_perform sin cos xb input frequency shape n).2.getD k 0) i)
            (sample_two_before xb.x_last_out xb.x_prev_out
              (fun k => (bandPass_perform sin cos xb input frequency shape n).2.getD k 0) i)))
    ∧ ((lowPass_perform sin cos xl input frequency shape n).2.length = n ∧
      (lowPass_perform sin cos xl input frequency shape n).2[i]?
        = some (difference_equation
            (lowPass_coeffs sin cos xl.x_twopi xl.x_sr (frequency i) (shape i)) (input i)
            (sample_before xl.x_last_in input i)
            (sample_two_before xl.x_last_in xl.x_prev_in input i)
            (sample_before xl.x_last_out
              (fun k => (lowPass_perform sin cos xl input frequency shape n).2.getD k 0) i)
            (sample_two_before xl.x_last_out xl.x_prev_out
              (fun k => (lowPass_perform sin cos xl input frequency shape n).2.getD k 0) i))) := by
  simp only [bandPass_perform_eq, lowPass_perform_eq]
  exact ⟨⟨biquad_loop_length _ _ _ _ _ _ _, biquad_loop_sample _ _ _ _ _ n i hi⟩,
    ⟨biquad_loop_length _ _ _ _ _ _ _, biquad_loop_sample _ _ _ _ _ n i hi⟩⟩

theorem perform_output_sample_witness :
    1 < 2
      ∧ ((bandPass_perform Real.sin Real.cos (bandPass_new Real.arctan 48000)
            (fun k => (k : ℝ)) (fun _ => 1000) (fun _ => 1) 2).2.length = 2 ∧
        (bandPass_perform Real.sin Real.cos (bandPass_new Real.arctan 48000)
            (fun k => (k : ℝ)) (fun _ => 1000) (fun _ => 1) 2).2[1]?
          = some (difference_equation
              (bandPass_coeffs Real.sin Real.cos (bandPass_new Real.arctan 48000).x_twopi
                (bandPass_new Real.arctan 48000).x_sr 1000 1) ((1 : Nat) : ℝ)
              (sample_before (bandPass_new Real.arctan 48000).x_last_in (fun k => (k : ℝ)) 1)
              (sample_two_before (bandPass_new Real.arctan 48000).x_last_in
                (bandPass_new Real.arctan 48000).x_prev_in (fun k => (k : ℝ)) 1)
              (sample_before (bandPass_new Real.arctan 48000).x_last_out
                (fun k => (bandPass_perform Real.sin Real.cos (bandPass_new Real.arctan 48000)
                  (fun k => (k : ℝ)) (fun _ => 1000) (fun _ => 1) 2).2.getD k 0) 1)
              (sample_two_before (bandPass_new Real.arctan 48000).x_last_out
                (bandPass_new Real.arctan 48000).x_prev_out
                (fun k => (bandPass_perform Real.sin Real.cos (bandPass_new Real.arctan 48000)
                  (fun k => (k : ℝ)) (fun _ => 1000) (fun _ => 1) 2).2.getD k 0) 1)))
      ∧ ((lowPass_perform Real.sin Real.cos (lowPass_new Real.arctan 48000)
            (fun k => (k : ℝ)) (fun _ => 1000) (fun _ => 1) 2).2.length = 2 ∧
        (lowPass_perform Real.sin Real.cos (lowPass_new Real.arctan 48000)
            (fun k => (k : ℝ)) (fun _ => 1000) (fun _ => 1) 2).2[1]?
          = some (difference_equation
              (lowPass_coeffs Real.sin Real.cos (lowPass_new Real.arctan 48000).x_twopi
                (lowPass_new Real.arctan 48000).x_sr 1000 1) ((1 : Nat) : ℝ)
              (sample_before (lowPass_new Real.arctan 48000).x_last_in (fun k => (k : ℝ)) 1)
              (sample_two_before (lowPass_new Real.arctan 48000).x_last_in
                (lowPass_new Real.arctan 48000).x_prev_in (fun k => (k : ℝ)) 1)
              (sample_before (lowPass_new Real.arctan 48000).x_last_out
                (fun k => (lowPass_perform Real.sin Real.cos (lowPass_new Real.arctan 48000)
                  (fun k => (k : ℝ)) (fun _ => 1000) (fun _ => 1) 2).2.getD k 0) 1)
              (sample_two_before (lowPass_new Real.arctan 48000).x_last_out
                (lowPass_new Real.arctan 48000).x_prev_out
                (fun k => (lowPass_perform Real.sin Real.cos (lowPass_new Real.arctan 48000)
                  (fun k => (k : ℝ)) (fun _ => 1000) (fun _ => 1) 2).2.getD k 0) 1))) :=
  ⟨by decide,
    perform_output_sample Real.sin Real.cos (bandPass_new Real.arctan 48000)
      (lowPass_new Real.arctan 48000) (fun k => (k : ℝ)) (fun _ => 1000) (fun _ => 1) 2 1
      (by decide)⟩

/-! ## C2, C3 -/

theorem twopi_eq : (8 : ℝ) * Real.arctan 1 = 2 * Real.pi := by
  rw [Real.arctan_one]
  ring

theorem clamp_eq_max (s : α) : (if s > 0.01 then s else (0.01 : α)) = max s 0.01 := by
  split
  · rw [max_eq_left (le_of_lt ‹_›)]
  · rw [max_eq_right (not_lt.mp ‹_›)]

/-- C3: low-pass coefficient derivation.  With `w = f*2*pi/sr`,
`s' = max(s, 0.01)`, `alpha = sin(w)/(2*s')` and `a0 = alpha + 1`, the
coefficients computed by `lowPass_perform` (with `x_twopi` as set by
`lowPass_new`) are `a1 = 2*cos(w)/a0`, `a2 = (alpha-1)/a0`,
`b0 = ((1-cos w)/2)/a0`, `b1 = (1-cos w)/a0`, `b2 = ((1-cos w)/2)/a0`; in
particular `b2 = b0` and `b1 = 2*b0`. -/
theorem lowPass_coefficients (f s sr sr0 : ℝ) :
    (lowPass_coeffs Real.sin Real.cos (lowPass_new Real.arctan sr0).x_twopi sr f s).coeff_a0
        = Real.sin (f * 2 * Real.pi / sr) / (2 * max s 0.01) + 1
      ∧ (lowPass_coeffs Real.sin Real.cos (lowPass_new Real.arctan sr0).x_twopi sr f s).coeff_a1
        = 2 * Real.cos (f * 2 * Real.pi / sr)
            / (Real.sin (f * 2 * Real.pi / sr) / (2 * max s 0.01) + 1)
      ∧ (lowPass_coeffs Real.sin Real.cos (lowPass_new Real.arctan sr0).x_twopi sr f s).coeff_a2
        = (Real.sin (f * 2 * Real.pi / sr) / (2 * max s 0.01) - 1)
            / (Real.sin (f * 2 * Real.pi / sr) / (2 * max s 0.01) + 1)
      ∧ (lowPass_coeffs Real.sin Real.cos (lowPass_new Real.arctan sr0).x_twopi sr f s).coeff_b0
        = (1 - Real.cos (f * 2 * Real.pi / sr)) / 2
            / (Real.sin (f * 2 * Real.pi / sr) / (2 * max s 0.01) + 1)
      ∧ (lowPass_coeffs Real.sin Real.cos (lowPass_new Real.arctan sr0).x_twopi sr f s).coeff_b1
        = (1 - Real.cos (f * 2 * Real.pi / sr))
            / (Real.sin (f * 2 * Real.pi / sr) / (2 * max s 0.01) + 1)
      ∧ (lowPass_coeffs Real.sin Real.cos (lowPass_new Real.arctan sr0).x_twopi sr f s).coeff_b2
        = (1 - Real.cos (f * 2 * Real.pi / sr)) / 2
            / (Real.sin (f * 2 * Real.pi / sr) / (2 * max s 0.01) + 1)
      ∧ (lowPass_coeffs Real.sin Real.cos (lowPass_new Real.arctan sr0).x_twopi sr f s).coeff_b2
        = (lowPass_coeffs Real.sin Real.cos (lowPass_new Real.arctan sr0).x_twopi sr f s).coeff_b0
      ∧ (lowPass_coeffs Real.sin Real.cos (lowPass_new Real.arctan sr0).x_twopi sr f s).coeff_b1
        = 2 * (lowPass_coeffs Real.sin Real.cos (lowPass_new Real.arctan sr0).x_twopi
            sr f s).coeff_b0 := by
  have hw : f * (lowPass_new Real.arctan sr0).x_twopi / sr = f * 2 * Real.pi / sr := by
    simp only [lowPass_new, twopi_eq]
    ring_nf
  simp only [lowPass_coeffs, hw, clamp_eq_max]
  generalize Real.sin (f * 2 * Real.pi / sr) / (2 * max s 0.01) = alpha
  generalize Real.cos (f * 2 * Real.pi / sr) = cw
  refine ⟨trivial, ?_, ?_, trivial, trivial, trivial, trivial, ?_⟩ <;> ring

/-! ## C4 -/

/-- C4: history continuity across blocks.  For either filter, running the
perform routine on the first `n` samples and then, on the resulting object,
on the remaining `m` samples gives the same `n+m` output samples and the same
final object as running it once on all `n+m` samples. -/
theorem perform_block_continuity (sin cos : α → α) (xb : t_bandPass α) (xl : t_lowPass α)
    (input frequency shape : Nat → α) (n m : Nat) :
    bandPass_perform sin cos xb input frequency shape (n + m)
        = ((bandPass_perform sin cos (bandPass_perform sin cos xb input frequency shape n).1
              (advance input n) (advance frequency n) (advance shape n) m).1,
            (bandPass_perform sin cos xb input frequency shape n).2
              ++ (bandPass_perform sin cos (bandPass_perform sin cos xb input frequency shape n).1
                (advance input n) (advance frequency n) (advance shape n) m).2)
    ∧ lowPass_perform sin cos xl input frequency shape (n + m)
        = ((lowPass_perform sin cos (lowPass_perform sin cos xl input frequency shape n).1
              (advance input n) (advance frequency n) (advance shape n) m).1,
            (lowPass_perform sin cos xl input frequency shape n).2
              ++ (lowPass_perform sin cos (lowPass_perform sin cos xl input frequency shape n).1
                (advance input n) (advance frequency n) (advance shape n) m).2) := by
  constructor
  · simp only [bandPass_perform_eq, biquad_loop_add, Nat.zero_add]
    have h := fun l => biquad_loop_advance (bandPass_coeffs sin cos xb.x_twopi xb.x_sr)
      input frequency shape m 0 n l
    simp only [Nat.add_zero] at h
    simp only [h]
    rfl
  · simp only [lowPass_perform_eq, biquad_loop_add, Nat.zero_add]
    have h := fun l => biquad_loop_advance (lowPass_coeffs sin cos xl.x_twopi xl.x_sr)
      input frequency shape m 0 n l
    simp only [Nat.add_zero] at h
    simp only [h]
    rfl

/-! ## C5 -/

/-- C6: shape-parameter floor.  For either filter and every frequency and
sample rate, the coefficients derived with shape 0 are those derived with
shape 0.01, and so are the coefficients derived with any shape `s ≤ 0.01`. -/
theorem shape_floor (sin cos : α → α) (twopi sr f : α) :
    (bandPass_coeffs sin cos twopi sr f 0 = bandPass_coeffs sin cos twopi sr f 0.01
      ∧ lowPass_coeffs sin cos twopi sr f 0 = lowPass_coeffs sin cos twopi sr f 0.01)
    ∧ ∀ s : α, s ≤ 0.01 →
      bandPass_coeffs sin cos twopi sr f s = bandPass_coeffs sin cos twopi sr f 0.01
      ∧ lowPass_coeffs sin cos twopi sr f s = lowPass_coeffs sin cos twopi sr f 0.01 := by
  have key : ∀ s : α, s ≤ 0.01 →
      bandPass_coeffs sin cos twopi sr f s = bandPass_coeffs sin cos twopi sr f 0.01
      ∧ lowPass_coeffs sin cos twopi sr f s = lowPass_coeffs sin cos twopi sr f 0.01 := by
    intro s hs
    have e1 : (if s > 0.01 then s else (0.01 : α)) = 0.01 := if_neg (not_lt.mpr hs)
    have e2 : (if (0.01 : α) > 0.01 then (0.01 : α) else 0.01) = 0.01 := if_neg (lt_irrefl _)
    simp only [bandPass_coeffs, lowPass_coeffs, e1, e2, and_self]
  exact ⟨key 0 (by norm_num), key⟩

theorem shape_floor_witness :
    (-1 : ℝ) ≤ 0.01
      ∧ bandPass_coeffs Real.sin Real.cos (8 * Real.arctan 1) 48000 1000 (-1)
          = bandPass_coeffs Real.sin Real.cos (8 * Real.arctan 1) 48000 1000 0.01
      ∧ lowPass_coeffs Real.sin Real.cos (8 * Real.arctan 1) 48000 1000 (-1)
          = lowPass_coeffs Real.sin Real.cos (8 * Real.arctan 1) 48000 1000 0.01 :=
  ⟨by norm_num,
    (shape_floor Real.sin Real.cos (8 * Real.arctan 1) 48000 1000).2 (-1) (by norm_num)⟩

/-! ## C7 -/

/-- C7: band-pass impulse response.  For a non-zero sample rate `sr`, with the
frequency control at `sr/4` and the shape control at 1, an input block whose
first sample is 1 (a unit impulse, whatever follows) fed into a band-pass
object with all-zero history gives `y[0] = b0`, the normalized feedforward
coefficient of that sample, and `b0 = 1/3`. -/
theorem bandPass_impulse_response (x : t_bandPass ℝ) (input frequency bandwidth : Nat → ℝ)
    (n : Nat) (hsr : x.x_sr ≠ 0) (htwopi : x.x_twopi = 8 * Real.arctan 1)
    (hh : x.x_last_in = 0 ∧ x.x_prev_in = 0 ∧ x.x_last_out = 0 ∧ x.x_prev_out = 0)
    (hx0 : input 0 = 1) (hf : frequency 0 = x.x_sr / 4) (hs : bandwidth 0 = 1) (hn : 0 < n) :
    (bandPass_perform Real.sin Real.cos x input frequency bandwidth n).2[0]?
        = some (bandPass_coeffs Real.sin Real.cos x.x_twopi x.x_sr
            (frequency 0) (bandwidth 0)).coeff_b0
      ∧ (bandPass_coeffs Real.sin Real.cos x.x_twopi x.x_sr
            (frequency 0) (bandwidth 0)).coeff_b0 = 1 / 3 := by
  constructor
  · rw [bandPass_perform_eq]
    simp only
    rw [biquad_loop_sample _ _ _ _ _ n 0 hn]
    simp [difference_equation, sample_before, sample_two_before, bandPass_locals, hh.1, hh.2.1,
      hh.2.2.1, hh.2.2.2, hx0]
  · have hw : x.x_sr / 4 * x.x_twopi / x.x_sr = Real.pi / 2 := by
      rw [htwopi, twopi_eq]
      field_simp
      ring
    simp only [bandPass_coeffs, hf, hs, hw, Real.sin_pi_div_two]
    norm_num

theorem bandPass_impulse_response_witness :
    (bandPass_new Real.arctan 4).x_sr ≠ 0
      ∧ (bandPass_perform Real.sin Real.cos (bandPass_new Real.arctan 4)
            (fun k => if k = 0 then 1 else 0) (fun _ => 1) (fun _ => 1) 1).2[0]?
          = some (bandPass_coeffs Real.sin Real.cos (bandPass_new Real.arctan 4).x_twopi
              (bandPass_new Real.arctan 4).x_sr 1 1).coeff_b0
      ∧ (bandPass_coeffs Real.sin Real.cos (bandPass_new Real.arctan 4).x_twopi
              (bandPass_new Real.arctan 4).x_sr 1 1).coeff_b0 = 1 / 3 :=
  have h4 : (bandPass_new Real.arctan 4).x_sr ≠ 0 := by
    show (4 : ℝ) ≠ 0
    norm_num
  ⟨h4, bandPass_impulse_response (bandPass_new Real.arctan 4)
    (fun k => if k = 0 then 1 else 0) (fun _ => 1) (fun _ => 1) 1 h4 rfl ⟨rfl, rfl, rfl, rfl⟩
    (by simp) (by show (1 : ℝ) = 4 / 4; norm_num) rfl (by decide)⟩

/-! ## C10 -/

/-- C12: the shape clamp.  For every shape control value `s` (zero and
negative included) the shape used by either filter is `max(s, 0.01)`, so the
denominator `2*shape` of `alpha` is at least 0.02 and is not zero; `alpha` is
`sin(w)` divided by that denominator. -/
theorem shape_clamp (sin cos : α → α) (twopi sr f s : α) :
    (bandPass_bandwidth_local s = max s 0.01 ∧ lowPass_reson_local s = max s 0.01)
      ∧ (0.02 ≤ 2 * bandPass_bandwidth_local s ∧ 0.02 ≤ 2 * lowPass_reson_local s)
      ∧ (2 * bandPass_bandwidth_local s ≠ 0 ∧ 2 * lowPass_reson_local s ≠ 0)
      ∧ (bandPass_coeffs sin cos twopi sr f s).coeff_a0
          = sin (f * twopi / sr) / (2 * bandPass_bandwidth_local s) + 1
      ∧ (lowPass_coeffs sin cos twopi sr f s).coeff_a0
          = sin (f * twopi / sr) / (2 * lowPass_reson_local s) + 1 := by
  have hb : bandPass_bandwidth_local s = max s 0.01 := clamp_eq_max s
  have hl : lowPass_reson_local s = max s 0.01 := clamp_eq_max s
  have hm : (0.01 : α) ≤ max s 0.01 := le_max_right _ _
  have h2 : (0.02 : α) ≤ 2 * max s 0.01 := by
    have e : (0.02 : α) = 2 * 0.01 := by norm_num
    rw [e]
    linarith
  have h0 : 2 * max s (0.01 : α) ≠ 0 := by
    have : (0 : α) < 0.02 := by norm_num
    exact ne_of_gt (lt_of_lt_of_le this h2)
  refine ⟨⟨hb, hl⟩, ⟨?_, ?_⟩, ⟨?_, ?_⟩, rfl, rfl⟩
  · rw [hb]
    exact h2
  · rw [hl]
    exact h2
  · rw [hb]
    exact h0
  · rw [hl]
    exact h0

/-! ## C13 -/

/-- C13: sample-rate update.  For either filter, after the rate check of the
DSP method with new sample rate `r`, the object's sample rate is `r`, and the
history, the six coefficient fields and `twopi` are unchanged. -/
theorem dsp_sample_rate_update (xb : t_bandPass α) (xl : t_lowPass α) (r : α) :
    ((bandPass_dsp xb r).x_sr = r
      ∧ (bandPass_dsp xb r).x_last_in = xb.x_last_in
      ∧ (bandPass_dsp xb r).x_prev_in = xb.x_prev_in
      ∧ (bandPass_dsp xb r).x_last_out = xb.x_last_out
      ∧ (bandPass_dsp xb r).x_prev_out = xb.x_prev_out
      ∧ (bandPass_dsp xb r).x_coeff_a0 = xb.x_coeff_a0
      ∧ (bandPass_dsp xb r).x_coeff_a1 = xb.x_coeff_a1
      ∧ (bandPass_dsp xb r).x_coeff_a2 = xb.x_coeff_a2
      ∧ (bandPass_dsp xb r).x_coeff_b0 = xb.x_coeff_b0
      ∧ (bandPass_dsp xb r).x_coeff_b1 = xb.x_coeff_b1
      ∧ (bandPass_dsp xb r).x_coeff_b2 = xb.x_coeff_b2
      ∧ (bandPass_dsp xb r).x_twopi = xb.x_twopi)
    ∧ ((lowPass_dsp xl r).x_sr = r
      ∧ (lowPass_dsp xl r).x_last_in = xl.x_last_in
      ∧ (lowPass_dsp xl r).x_prev_in = xl.x_prev_in
      ∧ (lowPass_dsp xl r).x_last_out = xl.x_last_out
      ∧ (lowPass_dsp xl r).x_prev_out = xl.x_prev_out
      ∧ (lowPass_dsp xl r).x_coeff_a0 = xl.x_coeff_a0
      ∧ (lowPass_dsp xl r).x_coeff_a1 = xl.x_coeff_a1
      ∧ (lowPass_dsp xl r).x_coeff_a2 = xl.x_coeff_a2
      ∧ (lowPass_dsp xl r).x_coeff_b0 = xl.x_coeff_b0
      ∧ (lowPass_dsp xl r).x_coeff_b1 = xl.x_coeff_b1
      ∧ (lowPass_dsp xl r).x_coeff_b2 = xl.x_coeff_b2
      ∧ (lowPass_dsp xl r).x_twopi = xl.x_twopi) := by
  constructor
  · unfold bandPass_dsp
    split
    · exact ⟨rfl, rfl, rfl, rfl, rfl, rfl, rfl, rfl, rfl, rfl, rfl, rfl⟩
    · rename_i h
      exact ⟨not_not.mp h, rfl, rfl, rfl, rfl, rfl, rfl, rfl, rfl, rfl, rfl, rfl⟩
  · unfold lowPass_dsp
    split
    · exact ⟨rfl, rfl, rfl, rfl, rfl, rfl, rfl, rfl, rfl, rfl, rfl, rfl⟩
    · rename_i h
      exact ⟨not_not.mp h, rfl, rfl, rfl, rfl, rfl, rfl, rfl, rfl, rfl, rfl, rfl⟩

/-! ## C14 -/

theorem biquad_loop_history (cf : α → α → Coeffs α) (input frequency shape : Nat → α)
    (l : Locals α) (n : Nat) (h : 2 ≤ n) :
    (biquad_loop cf input frequency shape n 0 l).1.last_in = input (n - 1)
      ∧ (biquad_loop cf input frequency shape n 0 l).1.prev_in = input (n - 2)
      ∧ (biquad_loop cf input frequency shape n 0 l).2[n - 1]?
          = some (biquad_loop cf input frequency shape n 0 l).1.last_out
      ∧ (biquad_loop cf input frequency shape n 0 l).2[n - 2]?
          = some (biquad_loop cf input frequency shape n 0 l).1.prev_out := by
  have h0 : n ≠ 0 := by omega
  have h1 : n ≠ 1 := by omega
  have e1 := biquad_locals_last_in cf input frequency shape l n
  have e2 := biquad_locals_prev_in cf input frequency shape l n
  have e3 := biquad_locals_last_out cf input frequency shape l n
  have e4 := biquad_locals_prev_out cf input frequency shape l n
  simp only [sample_before, sample_two_before, h0, h1, if_false] at e1 e2 e3 e4
  simp only [biquad_locals] at e1 e2 e3 e4
  refine ⟨e1, e2, ?_, ?_⟩
  · rw [e3]
    exact biquad_loop_getElem? cf input frequency shape l n (n - 1) (by omega)
  · rw [e4]
    exact biquad_loop_getElem? cf input frequency shape l n (n - 2) (by omega)

theorem biquad_loop_history_one (cf : α → α → Coeffs α) (input frequency shape : Nat → α)
    (l : Locals α) :
    (biquad_loop cf input frequency shape 1 0 l).1.last_in = input 0
      ∧ (biquad_loop cf input frequency shape 1 0 l).1.prev_in = l.last_in
      ∧ (biquad_loop cf input frequency shape 1 0 l).2[0]?
          = some (biquad_loop cf input frequency shape 1 0 l).1.last_out
      ∧ (biquad_loop cf input frequency shape 1 0 l).1.prev_out = l.last_out :=
  ⟨rfl, rfl, rfl, rfl⟩

/-- C14: the history holds the two most recent samples in FIFO order.  For
either filter: a block of length 0 leaves the object unchanged; after a block
of length 1, `lastIn = x[0]`, `lastOut = y[0]` and `prevIn`, `prevOut` are the
previous `lastIn`, `lastOut`; after a block of `n ≥ 2` samples,
`lastIn = x[n-1]`, `prevIn = x[n-2]`, `lastOut = y[n-1]`, `prevOut = y[n-2]`,
where `y` is the block just produced. -/
theorem history_fifo (sin cos : α → α) (xb : t_bandPass α) (xl : t_lowPass α)
    (input frequency shape : Nat → α) (n : Nat) :
    (bandPass_perform sin cos xb input frequency shape 0 = (xb, [])
      ∧ ((bandPass_perform sin cos xb input frequency shape 1).1.x_last_in = input 0
        ∧ (bandPass_perform sin cos xb input frequency shape 1).1.x_prev_in = xb.x_last_in
        ∧ (bandPass_perform sin cos xb input frequency shape 1).2[0]?
            = some (bandPass_perform sin cos xb input frequency shape 1).1.x_last_out
        ∧ (bandPass_perform sin cos xb input frequency shape 1).1.x_prev_out = xb.x_last_out)
      ∧ (2 ≤ n →
        (bandPass_perform sin cos xb input frequency shape n).1.x_last_in = input (n - 1)
        ∧ (bandPass_perform sin cos xb input frequency shape n).1.x_prev_in = input (n - 2)
        ∧ (bandPass_perform sin cos xb input frequency shape n).2[n - 1]?
            = some (bandPass_perform sin cos xb input frequency shape n).1.x_last_out
        ∧ (bandPass_perform sin cos xb input frequency shape n).2[n - 2]?
            = some (bandPass_perform sin cos xb input frequency shape n).1.x_prev_out))
    ∧ (lowPass_perform sin cos xl input frequency shape 0 = (xl, [])
      ∧ ((lowPass_perform sin cos xl input frequency shape 1).1.x_last_in = input 0
        ∧ (lowPass_perform sin cos xl input frequency shape 1).1.x_prev_in = xl.x_last_in
        ∧ (lowPass_perform sin cos xl input frequency shape 1).2[0]?
            = some (lowPass_perform sin cos xl input frequency shape 1).1.x_last_out
        ∧ (lowPass_perform sin cos xl input frequency shape 1).1.x_prev_out = xl.x_last_out)
      ∧ (2 ≤ n →
        (lowPass_perform sin cos xl input frequency shape n).1.x_last_in = input (n - 1)
        ∧ (lowPass_perform sin cos xl input frequency shape n).1.x_prev_in = input (n - 2)
        ∧ (lowPass_perform sin cos xl input frequency shape n).2[n - 1]?
            = some (lowPass_perform sin cos xl input frequency shape n).1.x_last_out
        ∧ (lowPass_perform sin cos xl input frequency shape n).2[n - 2]?
            = some (lowPass_perform sin cos xl input frequency shape n).1.x_prev_out)) := by
  simp only [bandPass_perform_eq, lowPass_perform_eq]
  refine ⟨⟨rfl, biquad_loop_history_one _ _ _ _ _, fun h => ?_⟩,
    ⟨rfl, biquad_loop_history_one _ _ _ _ _, fun h => ?_⟩⟩
  · exact biquad_loop_history _ input frequency shape (bandPass_locals xb) n h
  · exact biquad_loop_history _ input frequency shape (lowPass_locals xl) n h

theorem history_fifo_witness :
    2 ≤ 3
      ∧ (bandPass_perform Real.sin Real.cos (bandPass_new Real.arctan 48000)
          (fun k => (k : ℝ)) (fun _ => 1000) (fun _ => 1) 3).1.x_last_in = ((3 - 1 : Nat) : ℝ)
      ∧ (lowPass_perform Real.sin Real.cos (lowPass_new Real.arctan 48000)
          (fun k => (k : ℝ)) (fun _ => 1000) (fun _ => 1) 3).2[3 - 2]?
            = some (lowPass_perform Real.sin Real.cos (lowPass_new Real.arctan 48000)
                (fun k => (k : ℝ)) (fun _ => 1000) (fun _ => 1) 3).1.x_prev_out :=
  have h := history_fifo Real.sin Real.cos (bandPass_new Real.arctan 48000)
    (lowPass_new Real.arctan 48000) (fun k => (k : ℝ)) (fun _ => 1000) (fun _ => 1) 3
  ⟨by decide, (h.1.2.2 (by decide)).1, (h.2.2.2 (by decide)).2.2.2⟩

/-! ## C15 -/

theorem biquad_sample_stale (cf : α → α → Coeffs α) (l l1 : Locals α) (x f s : α)
    (h1 : l1.last_in = l.last_in) (h2 : l1.prev_in = l.prev_in)
    (h3 : l1.last_out = l.last_out) (h4 : l1.prev_out = l.prev_out) :
    biquad_sample cf l1 x f s = biquad_sample cf l x f s := by
  simp only [biquad_sample, h1, h2, h3, h4]

theorem biquad_loop_stale (cf : α → α → Coeffs α) (input frequency shape : Nat → α)
    (n i : Nat) (l l1 : Locals α)
    (h1 : l1.last_in = l.last_in) (h2 : l1.prev_in = l.prev_in)
    (h3 : l1.last_out = l.last_out) (h4 : l1.prev_out = l.prev_out) :
    (biquad_loop cf input frequency shape n i l1).2 = (biquad_loop cf input frequency shape n i l).2
      ∧ (biquad_loop cf input frequency shape n i l1).1.last_in
          = (biquad_loop cf input frequency shape n i l).1.last_in
      ∧ (biquad_loop cf input frequency shape n i l1).1.prev_in
          = (biquad_loop cf input frequency shape n i l).1.prev_in
      ∧ (biquad_loop cf input frequency shape n i l1).1.last_out
          = (biquad_loop cf input frequency shape n i l).1.last_out
      ∧ (biquad_loop cf input frequency shape n i l1).1.prev_out
          = (biquad_loop cf input frequency shape n i l).1.prev_out
      ∧ (1 ≤ n → (biquad_loop cf input frequency shape n i l1).1
          = (biquad_loop cf input frequency shape n i l).1) := by
  cases n with
  | zero => exact ⟨rfl, h1, h2, h3, h4, fun h => absurd h (by decide)⟩
  | succ n =>
    have e := biquad_sample_stale cf l l1 (input i) (frequency i) (shape i) h1 h2 h3 h4
    have e2 : biquad_loop cf input frequency shape (n + 1) i l1
        = biquad_loop cf input frequency shape (n + 1) i l := by
      simp only [biquad_loop, e]
    rw [e2]
    exact ⟨rfl, rfl, rfl, rfl, rfl, fun _ => rfl⟩

theorem biquad_loop_last_coeff (cf : α → α → Coeffs α) (input frequency shape : Nat → α)
    (l : Locals α) (n : Nat) (h : 1 ≤ n) :
    (biquad_loop cf input frequency shape n 0 l).1.coeff
      = cf (frequency (n - 1)) (shape (n - 1)) := by
  obtain ⟨m, rfl⟩ : ∃ m, n = m + 1 := ⟨n - 1, by omega⟩
  have e := biquad_locals_succ cf input frequency shape l m
  simp only [biquad_locals] at e
  rw [e]
  rfl

/-- C15: stale coefficients never influence the result.  For either filter,
two objects that agree on the history, the sample rate and `twopi`, whatever
their six stored coefficient fields, produce the same output block and the
same final history on the same input, frequency and shape blocks; for
`n ≥ 1` the final objects are equal, their coefficient fields being those
derived for the last sample of the block. -/
theorem stale_coefficients_irrelevant (sin cos : α → α) (xb xb1 : t_bandPass α)
    (xl xl1 : t_lowPass α) (input frequency shape : Nat → α) (n : Nat)
    (hb : xb1.x_last_in = xb.x_last_in ∧ xb1.x_prev_in = xb.x_prev_in
      ∧ xb1.x_last_out = xb.x_last_out ∧ xb1.x_prev_out = xb.x_prev_out
      ∧ xb1.x_sr = xb.x_sr ∧ xb1.x_twopi = xb.x_twopi)
    (hl : xl1.x_last_in = xl.x_last_in ∧ xl1.x_prev_in = xl.x_prev_in
      ∧ xl1.x_last_out = xl.x_last_out ∧ xl1.x_prev_out = xl.x_prev_out
      ∧ xl1.x_sr = xl.x_sr ∧ xl1.x_twopi = xl.x_twopi) :
    ((bandPass_perform sin cos xb1 input frequency shape n).2
        = (bandPass_perform sin cos xb input frequency shape n).2
      ∧ (bandPass_perform sin cos xb1 input frequency shape n).1.x_last_in
        = (bandPass_perform sin cos xb input frequency shape n).1.x_last_in
      ∧ (bandPass_perform sin cos xb1 input frequency shape n).1.x_prev_in
        = (bandPass_perform sin cos xb input frequency shape n).1.x_prev_in
      ∧ (bandPass_perform sin cos xb1 input frequency shape n).1.x_last_out
        = (bandPass_perform sin cos xb input frequency shape n).1.x_last_out
      ∧ (bandPass_perform sin cos xb1 input frequency shape n).1.x_prev_out
        = (bandPass_perform sin cos xb input frequency shape n).1.x_prev_out
      ∧ (1 ≤ n →
        (bandPass_perform sin cos xb1 input frequency shape n).1
          = (bandPass_perform sin cos xb input frequency shape n).1
        ∧ (bandPass_locals (bandPass_perform sin cos xb input frequency shape n).1).coeff
          = bandPass_coeffs sin cos xb.x_twopi xb.x_sr (frequency (n - 1)) (shape (n - 1))))
    ∧ ((lowPass_perform sin cos xl1 input frequency shape n).2
        = (lowPass_perform sin cos xl input frequency shape n).2
      ∧ (lowPass_perform sin cos xl1 input frequency shape n).1.x_last_in
        = (lowPass_perform sin cos xl input frequency shape n).1.x_last_in
      ∧ (lowPass_perform sin cos xl1 input frequency shape n).1.x_prev_in
        = (lowPass_perform sin cos xl input frequency shape n).1.x_prev_in
      ∧ (lowPass_perform sin cos xl1 input frequency shape n).1.x_last_out
        = (lowPass_perform sin cos xl input frequency shape n).1.x_last_out
      ∧ (lowPass_perform sin cos xl1 input frequency shape n).1.x_prev_out
        = (lowPass_perform sin cos xl input frequency shape n).1.x_prev_out
      ∧ (1 ≤ n →
        (lowPass_perform sin cos xl1 input frequency shape n).1
          = (lowPass_perform sin cos xl input frequency shape n).1
        ∧ (lowPass_locals (lowPass_perform sin cos xl input frequency shape n).1).coeff
          = lowPass_coeffs sin cos xl.x_twopi xl.x_sr (frequency (n - 1)) (shape (n - 1)))) := by
  obtain ⟨b1, b2, b3, b4, b5, b6⟩ := hb
  obtain ⟨l1, l2, l3, l4, l5, l6⟩ := hl
  simp only [bandPass_perform_eq, lowPass_perform_eq, b5, b6, l5, l6]
  obtain ⟨p0, p1, p2, p3, p4, p5⟩ := biquad_loop_stale (bandPass_coeffs sin cos xb.x_twopi xb.x_sr)
    input frequency shape n 0 (bandPass_locals xb) (bandPass_locals xb1) b1 b2 b3 b4
  obtain ⟨q0, q1, q2, q3, q4, q5⟩ := biquad_loop_stale (lowPass_coeffs sin cos xl.x_twopi xl.x_sr)
    input frequency shape n 0 (lowPass_locals xl) (lowPass_locals xl1) l1 l2 l3 l4
  refine ⟨⟨p0, p1, p2, p3, p4, fun h => ⟨?_, ?_⟩⟩, ⟨q0, q1, q2, q3, q4, fun h => ⟨?_, ?_⟩⟩⟩
  · rw [p5 h]
    simp only [bandPass_store, b5, b6]
  · exact biquad_loop_last_coeff _ input frequency shape (bandPass_locals xb) n h
  · rw [q5 h]
    simp only [lowPass_store, l5, l6]
  · exact biquad_loop_last_coeff _ input frequency shape (lowPass_locals xl) n h

theorem stale_coefficients_irrelevant_witness :
    1 ≤ 2
      ∧ (bandPass_perform Real.sin Real.cos
            (⟨9, 8, 7, 6, 5, 4, 1, 2, 3, 4, 8 * Real.arctan 1, 48000⟩ : t_bandPass ℝ)
            (fun k => (k : ℝ)) (fun _ => 1000) (fun _ => 1) 2).1
          = (bandPass_perform Real.sin Real.cos
            (⟨0, 0, 0, 0, 0, 0, 1, 2, 3, 4, 8 * Real.arctan 1, 48000⟩ : t_bandPass ℝ)
            (fun k => (k : ℝ)) (fun _ => 1000) (fun _ => 1) 2).1
      ∧ (lowPass_perform Real.sin Real.cos
            (⟨9, 8, 7, 6, 5, 4, 1, 2, 3, 4, 8 * Real.arctan 1, 48000⟩ : t_lowPass ℝ)
            (fun k => (k : ℝ)) (fun _ => 1000) (fun _ => 1) 2).2
          = (lowPass_perform Real.sin Real.cos
            (⟨0, 0, 0, 0, 0, 0, 1, 2, 3, 4, 8 * Real.arctan 1, 48000⟩ : t_lowPass ℝ)
            (fun k => (k : ℝ)) (fun _ => 1000) (fun _ => 1) 2).2 :=
  have h := stale_coefficients_irrelevant Real.sin Real.cos
    (⟨0, 0, 0, 0, 0, 0, 1, 2, 3, 4, 8 * Real.arctan 1, 48000⟩ : t_bandPass ℝ)
    (⟨9, 8, 7, 6, 5, 4, 1, 2, 3, 4, 8 * Real.arctan 1, 48000⟩ : t_bandPass ℝ)
    (⟨0, 0, 0, 0, 0, 0, 1, 2, 3, 4, 8 * Real.arctan 1, 48000⟩ : t_lowPass ℝ)
    (⟨9, 8, 7, 6, 5, 4, 1, 2, 3, 4, 8 * Real.arctan 1, 48000⟩ : t_lowPass ℝ)
    (fun k => (k : ℝ)) (fun _ => 1000) (fun _ => 1) 2
    ⟨rfl, rfl, rfl, rfl, rfl, rfl⟩ ⟨rfl, rfl, rfl, rfl, rfl, rfl⟩
  ⟨by decide, (h.1.2.2.2.2.2 (by decide)).1, h.2.1⟩

/-! ## C18 -/

theorem biquad_loop_no_feedforward (cf : α → α → Coeffs α) (input frequency shape : Nat → α)
    (n i : Nat) (l : Locals α)
    (hb : ∀ k, (cf (frequency k) (shape k)).coeff_b0 = 0
      ∧ (cf (frequency k) (shape k)).coeff_b1 = 0 ∧ (cf (frequency k) (shape k)).coeff_b2 = 0)
    (h1 : l.last_out = 0) (h2 : l.prev_out = 0) :
    (biquad_loop cf input frequency shape n i l).2 = List.replicate n 0
      ∧ (biquad_loop cf input frequency shape n i l).1.last_out = 0
      ∧ (biquad_loop cf input frequency shape n i l).1.prev_out = 0 := by
  induction n generalizing i l with
  | zero => exact ⟨rfl, h1, h2⟩
  | succ n ih =>
    have hout : (biquad_sample cf l (input i) (frequency i) (shape i)).2 = 0 := by
      simp [biquad_sample, h1, h2, (hb i).1, (hb i).2.1, (hb i).2.2]
    obtain ⟨r1, r2, r3⟩ := ih (i + 1)
      (biquad_sample cf l (input i) (frequency i) (shape i)).1 hout h1
    simp only [biquad_loop]
    exact ⟨by rw [r1, hout]; rfl, r2, r3⟩

/-- C18: at frequency exactly 0 the low-pass passes nothing.  For every sample
rate and shape, a frequency sample of 0 gives `w = 0`, `alpha = 0`, `a0 = 1`
and the low-pass coefficients `b0 = b1 = b2 = 0`, `a1 = 2`, `a2 = -1`; so a
low-pass object with all-zero history whose frequency control is held at 0
outputs 0 for every sample of every input block, of any length. -/
theorem lowPass_zero_frequency (x : t_lowPass ℝ) (input shape : Nat → ℝ) (s : ℝ) (n : Nat)
    (hh : x.x_last_in = 0 ∧ x.x_prev_in = 0 ∧ x.x_last_out = 0 ∧ x.x_prev_out = 0) :
    (0 * x.x_twopi / x.x_sr = 0
        ∧ Real.sin (0 * x.x_twopi / x.x_sr) / (2 * max s 0.01) = 0)
      ∧ ((lowPass_coeffs Real.sin Real.cos x.x_twopi x.x_sr 0 s).coeff_a0 = 1
        ∧ (lowPass_coeffs Real.sin Real.cos x.x_twopi x.x_sr 0 s).coeff_b0 = 0
        ∧ (lowPass_coeffs Real.sin Real.cos x.x_twopi x.x_sr 0 s).coeff_b1 = 0
        ∧ (lowPass_coeffs Real.sin Real.cos x.x_twopi x.x_sr 0 s).coeff_b2 = 0
        ∧ (lowPass_coeffs Real.sin Real.cos x.x_twopi x.x_sr 0 s).coeff_a1 = 2
        ∧ (lowPass_coeffs Real.sin Real.cos x.x_twopi x.x_sr 0 s).coeff_a2 = -1)
      ∧ (lowPass_perform Real.sin Real.cos x input (fun _ => 0) shape n).2
          = List.replicate n 0 := by
  have hw : (0 : ℝ) * x.x_twopi / x.x_sr = 0 := by
    rw [zero_mul, zero_div]
  have hc : ∀ q : ℝ, lowPass_coeffs Real.sin Real.cos x.x_twopi x.x_sr 0 q
      = ⟨1, 2, -1, 0, 0, 0⟩ := by
    intro q
    simp only [lowPass_coeffs, hw, Real.sin_zero, Real.cos_zero, zero_div]
    norm_num
  refine ⟨⟨hw, ?_⟩, ?_, ?_⟩
  · rw [hw, Real.sin_zero, zero_div]
  · rw [hc s]
    exact ⟨rfl, rfl, rfl, rfl, rfl, rfl⟩
  · rw [lowPass_perform_eq]
    refine (biquad_loop_no_feedforward _ input (fun _ => 0) shape n 0 (lowPass_locals x) ?_
      hh.2.2.1 hh.2.2.2).1
    intro k
    rw [hc (shape k)]
    exact ⟨rfl, rfl, rfl⟩

theorem lowPass_zero_frequency_witness :
    (lowPass_perform Real.sin Real.cos (lowPass_new Real.arctan 48000)
        (fun _ => 1) (fun _ => 0) (fun _ => 1) 4).2 = [0, 0, 0, 0] :=
  (lowPass_zero_frequency (lowPass_new Real.arctan 48000) (fun _ => 1) (fun _ => 1) 1 4
    ⟨rfl, rfl, rfl, rfl⟩).2.2

end claims

end Filters
